import Mathlib

/-!
Shallow embedding of the ICARUS CRT/TPC matching algorithm
(`icaruscode/CRT/CRTUtils/CRTT0MatchAlg.cc`) and of the per-tagger
coincidence / dead-time loop of the CRT front-end simulation
(`CRTDetSim_module.cc`), together with theorems settling the frozen
claims about them.

Modelling conventions:
* C++ `double` values are modelled as exact rationals (`ℚ`) wherever the
  code only adds, multiplies, divides and compares, and as reals (`ℝ`)
  where the code takes a square root (`TVector3::Mag`).  Division by zero
  follows Lean's convention `x / 0 = 0`; theorems that depend on a
  division carry explicit nonzero hypotheses where the rational model
  could otherwise diverge from IEEE semantics.
* External framework services (space-charge correction offsets, geometry,
  track trajectories) enter as explicit function parameters.
* Fallible C++ operations (`std::vector::at`, which throws
  `std::out_of_range`) are modelled with `Option`, `none` marking the
  throw.
-/

namespace Icarus

/-- 3-vector with rational coordinates, modelling `TVector3`. -/
@[ext] structure V3 where
  x : ℚ
  y : ℚ
  z : ℚ
deriving DecidableEq

namespace V3

instance : Add V3 := ⟨fun a b => ⟨a.x + b.x, a.y + b.y, a.z + b.z⟩⟩
instance : Sub V3 := ⟨fun a b => ⟨a.x - b.x, a.y - b.y, a.z - b.z⟩⟩
instance : SMul ℚ V3 := ⟨fun t a => ⟨t * a.x, t * a.y, t * a.z⟩⟩

@[simp] theorem add_x (a b : V3) : (a + b).x = a.x + b.x := rfl
@[simp] theorem add_y (a b : V3) : (a + b).y = a.y + b.y := rfl
@[simp] theorem add_z (a b : V3) : (a + b).z = a.z + b.z := rfl
@[simp] theorem sub_x (a b : V3) : (a - b).x = a.x - b.x := rfl
@[simp] theorem sub_y (a b : V3) : (a - b).y = a.y - b.y := rfl
@[simp] theorem sub_z (a b : V3) : (a - b).z = a.z - b.z := rfl
@[simp] theorem smul_x (t : ℚ) (a : V3) : (t • a).x = t * a.x := rfl
@[simp] theorem smul_y (t : ℚ) (a : V3) : (t • a).y = t * a.y := rfl
@[simp] theorem smul_z (t : ℚ) (a : V3) : (t • a).z = t * a.z := rfl

/-- Dot product (`TVector3::Dot`). -/
def dot (a b : V3) : ℚ := a.x * b.x + a.y * b.y + a.z * b.z

/-- Cross product (`TVector3::Cross`). -/
def cross (a b : V3) : V3 :=
  ⟨a.y * b.z - a.z * b.y, a.z * b.x - a.x * b.z, a.x * b.y - a.y * b.x⟩

/-- Squared magnitude (`TVector3::Mag2`), an exact rational. -/
def magSq (a : V3) : ℚ := a.x * a.x + a.y * a.y + a.z * a.z

/-- Magnitude (`TVector3::Mag`): the square root lives in `ℝ`. -/
noncomputable def mag (a : V3) : ℝ := Real.sqrt ((magSq a : ℚ) : ℝ)

theorem magSq_nonneg (a : V3) : 0 ≤ magSq a := by
  have hx := mul_self_nonneg a.x
  have hy := mul_self_nonneg a.y
  have hz := mul_self_nonneg a.z
  unfold magSq; linarith

theorem mag_nonneg (a : V3) : 0 ≤ mag a := Real.sqrt_nonneg _

/-- Lagrange identity specialised to 3-vectors. -/
theorem magSq_cross (a b : V3) :
    magSq (cross a b) = magSq a * magSq b - dot a b * dot a b := by
  unfold magSq cross dot; ring

theorem mag_eq_zero_iff (a : V3) : mag a = 0 ↔ magSq a = 0 := by
  unfold mag
  rw [Real.sqrt_eq_zero (by exact_mod_cast magSq_nonneg a)]
  exact_mod_cast Iff.rfl

end V3

/-- `sbn::crt::CRTHit`: 3D position with per-axis uncertainty, a
photoelectron yield, and two raw timestamps.  The timestamps are modelled
as exact rationals already carrying their signed numeric value. -/
structure CRTHit where
  x_pos : ℚ
  y_pos : ℚ
  z_pos : ℚ
  x_err : ℚ
  y_err : ℚ
  z_err : ℚ
  peshit : ℚ
  ts0_ns : ℚ
  ts1_ns : ℚ
deriving DecidableEq

/-- A default-constructed `sbn::crt::CRTHit` (all members zero). -/
def nullCRTHit : CRTHit := ⟨0, 0, 0, 0, 0, 0, 0, 0, 0⟩

/-- The centre position of a CRT hit as a `TVector3`. -/
def CRTHit.pos (h : CRTHit) : V3 := ⟨h.x_pos, h.y_pos, h.z_pos⟩

/-- `matchCand`: candidate produced per (track, hit) pair.  `dca` and
`extrapLen` come out of square roots, hence live in `ℝ`. -/
structure matchCand where
  thishit : CRTHit
  t0 : ℚ
  dca : ℝ
  extrapLen : ℝ

/-- `makeNULLmc` (CRTT0MatchAlg.cc lines 41-49): the no-match sentinel,
a default hit with `t0 = dca = extrapLen = -99999`. -/
def makeNULLmc : matchCand :=
  { thishit := nullCRTHit, t0 := -99999, dca := -99999, extrapLen := -99999 }

/-- `CRTT0MatchAlg::SimpleDCA` (lines 620-628): distance of the hit
centre to the infinite line through `start` with direction `direction`,
computed as `|(pos-start) × (pos-end)| / |direction|` with
`end = start + direction`. -/
noncomputable def SimpleDCA (hit : CRTHit) (start direction : V3) : ℝ :=
  let pos := hit.pos
  let endv := start + direction
  let denominator := direction.mag
  let numerator := (V3.cross (pos - start) (pos - endv)).mag
  numerator / denominator

/-- The vector `dP` of `CRTT0MatchAlg::LineSegmentDistance`
(lines 669-718): segment `start1-end1` against the infinite line
`start2-end2`, almost-parallel case guarded by `smallNum = 0.00001`,
with the code's own `/D` scalings kept verbatim.  The returned distance
is `dP.Mag()`. -/
def lineSegDP (start1 end1 start2 end2 : V3) : V3 :=
  let smallNum : ℚ := 1 / 100000
  let direction1 := end1 - start1
  let direction2 := end2 - start2
  let u := direction1
  let v := direction2
  let w := start1 - start2
  let a := V3.dot u u
  let b := V3.dot u v
  let c := V3.dot v v
  let d := V3.dot u w
  let e := V3.dot v w
  let D := a * c - b * b
  let sN : ℚ := if D < smallNum then 0 else
    let sN0 := (b * e - c * d) / D
    if sN0 < 0 then 0 else if sN0 > D then D else sN0
  let sD : ℚ := if D < smallNum then 1 else D
  let tN : ℚ := if D < smallNum then e else
    let sN0 := (b * e - c * d) / D
    if sN0 < 0 then e else if sN0 > D then e + b else (a * e - b * d) / D
  let tD : ℚ := if D < smallNum then c else
    let sN0 := (b * e - c * d) / D
    if sN0 < 0 then c else if sN0 > D then c else D
  let sc : ℚ := if |sN| < smallNum then 0 else sN / sD
  let tc : ℚ := if |tN| < smallNum then 0 else tN / tD
  w + sc • u - tc • v

/-- `CRTT0MatchAlg::LineSegmentDistance` (lines 669-720). -/
noncomputable def LineSegmentDistance (start1 end1 start2 end2 : V3) : ℝ :=
  (lineSegDP start1 end1 start2 end2).mag

/-- One slab lower bound of `CRTT0MatchAlg::CubeIntersection`: the
branch on the sign of the inverse direction component (source lines
735-752, repeated per axis). -/
def slabLo (lo hi s i : ℚ) : ℚ := if 0 ≤ i then (lo - s) * i else (hi - s) * i

/-- One slab upper bound of `CRTT0MatchAlg::CubeIntersection` (see
`slabLo`). -/
def slabHi (lo hi s i : ℚ) : ℚ := if 0 ≤ i then (hi - s) * i else (lo - s) * i

/-- `CRTT0MatchAlg::CubeIntersection` (lines 724-795): slab test of the
infinite line through `start`, `end_` against the axis-aligned box
`[bmin, bmax]`; `(-99999, -99999, -99999)` is the in-band sentinel for
"no intersection". -/
def CubeIntersection (bmin bmax start end_ : V3) : V3 × V3 :=
  let dir := end_ - start
  let ix := 1 / dir.x
  let iy := 1 / dir.y
  let iz := 1 / dir.z
  let sent : V3 := ⟨-99999, -99999, -99999⟩
  let tmin0 := slabLo bmin.x bmax.x start.x ix
  let tmax0 := slabHi bmin.x bmax.x start.x ix
  let tymin := slabLo bmin.y bmax.y start.y iy
  let tymax := slabHi bmin.y bmax.y start.y iy
  if tmin0 > tymax ∨ tymin > tmax0 then (sent, sent)
  else
    let tmin1 := if tymin > tmin0 then tymin else tmin0
    let tmax1 := if tymax < tmax0 then tymax else tmax0
    let tzmin := slabLo bmin.z bmax.z start.z iz
    let tzmax := slabHi bmin.z bmax.z start.z iz
    if tmin1 > tzmax ∨ tzmin > tmax1 then (sent, sent)
    else
      let tmin2 := if tzmin > tmin1 then tzmin else tmin1
      let tmax2 := if tzmax < tmax1 then tzmax else tmax1
      (⟨start.x + tmin2 * dir.x, start.y + tmin2 * dir.y, start.z + tmin2 * dir.z⟩,
       ⟨start.x + tmax2 * dir.x, start.y + tmax2 * dir.y, start.z + tmax2 * dir.z⟩)

/-- The four box-edge vertices chosen by `CRTT0MatchAlg::DistToCrtHit`
(lines 640-655): the axis of smallest uncertainty is held fixed; the two
override `if`s of the source have mutually exclusive conditions and are
rendered as a chain. -/
def crtVerts (hit : CRTHit) : V3 × V3 × V3 × V3 :=
  if hit.y_err < hit.x_err ∧ hit.y_err < hit.z_err then
    (⟨hit.x_pos - hit.x_err, hit.y_pos, hit.z_pos - hit.z_err⟩,
     ⟨hit.x_pos + hit.x_err, hit.y_pos, hit.z_pos - hit.z_err⟩,
     ⟨hit.x_pos - hit.x_err, hit.y_pos, hit.z_pos + hit.z_err⟩,
     ⟨hit.x_pos + hit.x_err, hit.y_pos, hit.z_pos + hit.z_err⟩)
  else if hit.z_err < hit.x_err ∧ hit.z_err < hit.y_err then
    (⟨hit.x_pos - hit.x_err, hit.y_pos - hit.y_err, hit.z_pos⟩,
     ⟨hit.x_pos + hit.x_err, hit.y_pos - hit.y_err, hit.z_pos⟩,
     ⟨hit.x_pos - hit.x_err, hit.y_pos + hit.y_err, hit.z_pos⟩,
     ⟨hit.x_pos + hit.x_err, hit.y_pos + hit.y_err, hit.z_pos⟩)
  else
    (⟨hit.x_pos, hit.y_pos - hit.y_err, hit.z_pos - hit.z_err⟩,
     ⟨hit.x_pos, hit.y_pos + hit.y_err, hit.z_pos - hit.z_err⟩,
     ⟨hit.x_pos, hit.y_pos - hit.y_err, hit.z_pos + hit.z_err⟩,
     ⟨hit.x_pos, hit.y_pos + hit.y_err, hit.z_pos + hit.z_err⟩)

/-- `CRTT0MatchAlg::DistToCrtHit` (lines 631-664): box-mode DCA.  If the
slab test reports an intersection (entry X differs from the sentinel
`-99999`) the distance is 0; otherwise the minimum of the four
line-to-edge distances. -/
noncomputable def DistToCrtHit (hit : CRTHit) (start end_ : V3) : ℝ :=
  let bmin : V3 := ⟨hit.x_pos - hit.x_err, hit.y_pos - hit.y_err, hit.z_pos - hit.z_err⟩
  let bmax : V3 := ⟨hit.x_pos + hit.x_err, hit.y_pos + hit.y_err, hit.z_pos + hit.z_err⟩
  if (CubeIntersection bmin bmax start end_).1.x ≠ -99999 then 0
  else
    let vs := crtVerts hit
    let dist1 := LineSegmentDistance vs.1 vs.2.1 start end_
    let dist2 := LineSegmentDistance vs.1 vs.2.2.1 start end_
    let dist3 := LineSegmentDistance vs.2.2.2 vs.2.1 start end_
    let dist4 := LineSegmentDistance vs.2.2.2 vs.2.2.1 start end_
    min (min dist1 dist2) (min dist3 dist4)

/-- `CRTT0MatchAlg::TrackT0Range` (lines 54-88): possible t0 range of a
track from its endpoint X coordinates, the signed drift direction and the
drift-volume X limits; `driftVelocity` is `detProp.DriftVelocity()`. -/
def TrackT0Range (driftVelocity startX endX : ℚ) (driftDirection : ℤ)
    (xLimits : ℚ × ℚ) : ℚ × ℚ :=
  if driftDirection = 0 then (0, 0)
  else
    let Vd := (driftDirection : ℚ) * driftVelocity
    let maxX := max startX endX
    let maxLimit := max xLimits.1 xLimits.2
    let maxShift := maxLimit - maxX
    let minX := min startX endX
    let minLimit := min xLimits.1 xLimits.2
    let minShift := minLimit - minX
    let t0max := maxShift / Vd
    let t0min := minShift / Vd
    (min t0min t0max, max t0min t0max)

/-- The rollover normalisation of `GetClosestCRTHit` (lines 406-407):
one full period (`1e6` microseconds) is added or subtracted when the
naive trigger-relative time falls outside `±0.5e6`. -/
def wrapCorrect (t : ℚ) : ℚ :=
  if t < -500000 then t + 1000000 else if t > 500000 then t - 1000000 else t

/-- The `TSMode ≠ 1` corrected time of `GetClosestCRTHit` (line 404):
the raw `ts0_ns` minus the trigger timestamp modulo `1e9`, scaled to
microseconds, then rollover-normalised.  The C++ subtraction of two
unsigned integers is modelled as the exact mathematical difference. -/
def crtTimeTS0 (ts0_ns trigMod : ℚ) : ℚ :=
  wrapCorrect ((ts0_ns - trigMod) / 1000)

/-- The corrected hit time of `GetClosestCRTHit` (lines 399-412):
`TSMode = 1` uses `ts1_ns` scaled to microseconds, every other mode uses
the rollover-normalised trigger-relative `ts0_ns`. -/
def hitCrtTime (tsMode : ℤ) (hit : CRTHit) (trigger_timestamp : ℕ) : ℚ :=
  if tsMode = 1 then hit.ts1_ns * (1 / 1000)
  else crtTimeTS0 hit.ts0_ns ((trigger_timestamp % 1000000000 : ℕ) : ℚ)

/-- The time-window gate of `GetClosestCRTHit` (lines 416-417): a hit
time passes when it lies in the window widened by 10 microseconds on
each side, or unconditionally when the window is degenerate
(`tMin = tMax`, the stitched-track case). -/
def hitTimeAccepted (t0MinMax : ℚ × ℚ) (crtTime : ℚ) : Bool :=
  (t0MinMax.1 - 10 ≤ crtTime ∧ crtTime ≤ t0MinMax.2 + 10) ∨ t0MinMax.1 = t0MinMax.2

/-- Configuration subset of `CRTT0MatchAlg` relevant to the matching
core (`reconfigure`, lines 16-38). -/
structure MatchConfig where
  fTSMode : ℤ
  fPEcut : ℚ
  fMaxUncert : ℚ
  fDistanceLimit : ℚ
  fDCAuseBox : Bool
  fDCAoverLength : Bool
  fSCEposCorr : Bool

/-- External services seen by the matching core: the TPC drift velocity,
the space-charge service gate `EnableCalSpatialSCE()`, and the composite
offset lookup `GetCalPosOffsets(pt, PositionToTPCID(pt).TPC)`. -/
structure MatchServices where
  driftVelocity : ℚ
  sceEnabled : Bool
  sceOffset : V3 → V3

/-- The drift shift plus optional space-charge correction applied to a
point, as in `DistOfClosestApproach` lines 98-108 (and repeated for the
endpoints in `GetClosestCRTHit` lines 447-469). -/
def driftShiftSCE (cfg : MatchConfig) (svc : MatchServices) (p : V3)
    (driftDirection : ℤ) (t0 : ℚ) : V3 :=
  let xshift := (driftDirection : ℚ) * t0 * svc.driftVelocity
  let p1 : V3 := ⟨p.x + xshift, p.y, p.z⟩
  if svc.sceEnabled ∧ cfg.fSCEposCorr then p1 + svc.sceOffset p1 else p1

/-- `CRTT0MatchAlg::DistOfClosestApproach` (lines 91-140): drift-shift
and SCE-correct the track point, then score the hit with the box or the
point DCA according to `fDCAuseBox`. -/
noncomputable def DistOfClosestApproach (cfg : MatchConfig) (svc : MatchServices)
    (trackPos trackDir : V3) (crtHit : CRTHit) (driftDirection : ℤ) (t0 : ℚ) : ℝ :=
  let pos := driftShiftSCE cfg svc trackPos driftDirection t0
  let endv := pos + trackDir
  if cfg.fDCAuseBox then DistToCrtHit crtHit pos endv
  else SimpleDCA crtHit pos trackDir

/-- The per-hit body of the candidate loop of `GetClosestCRTHit`
(lines 396-500), as an `Option`-valued filter: `none` when the hit is
rejected by the time window, the PE cut, the uncertainty cuts or the
distance limit; otherwise the `matchCand` that is pushed onto
`t0Candidates`.  The track enters through its endpoints and through
`dirs`, the abstraction of the direction computation chosen by
`fDirMethod` (`TrackDirectionAverage` or `TrackDirection`), a function
of the candidate hit time. -/
noncomputable def candidateOfHit (cfg : MatchConfig) (svc : MatchServices)
    (start end_ : V3) (dirs : ℚ → V3 × V3) (t0MinMax : ℚ × ℚ)
    (driftDirection : ℤ) (trigger_timestamp : ℕ) (crtHit : CRTHit) :
    Option matchCand :=
  let crtTime := hitCrtTime cfg.fTSMode crtHit trigger_timestamp
  if ¬ hitTimeAccepted t0MinMax crtTime then none
  else if crtHit.peshit < cfg.fPEcut then none
  else if crtHit.x_err > cfg.fMaxUncert then none
  else if crtHit.y_err > cfg.fMaxUncert then none
  else if crtHit.z_err > cfg.fMaxUncert then none
  else
    let startDir := (dirs crtTime).1
    let endDir := (dirs crtTime).2
    let startDist := DistOfClosestApproach cfg svc start startDir crtHit driftDirection crtTime
    let endDist := DistOfClosestApproach cfg svc end_ endDir crtHit driftDirection crtTime
    let thisstart := driftShiftSCE cfg svc start driftDirection crtTime
    let thisend := driftShiftSCE cfg svc end_ driftDirection crtTime
    if startDist < (cfg.fDistanceLimit : ℝ) ∨ endDist < (cfg.fDistanceLimit : ℝ) then
      let distS := (crtHit.pos - thisstart).mag
      let distE := (crtHit.pos - thisend).mag
      if distS < distE then
        some { thishit := crtHit, t0 := crtTime, dca := startDist, extrapLen := distS }
      else
        some { thishit := crtHit, t0 := crtTime, dca := endDist, extrapLen := distE }
    else none

/-- The best-candidate loop of `GetClosestCRTHit` for `fDCAoverLength`
false (lines 516-522): replace the running best when its `dca` is
negative, or when the candidate has a smaller nonnegative `dca`. -/
noncomputable def selectLoopDCA : matchCand → List matchCand → matchCand
  | best, [] => best
  | best, c :: rest =>
      selectLoopDCA
        (if best.dca < 0 then c
         else if c.dca < best.dca ∧ c.dca ≥ 0 then c else best) rest

/-- The best-candidate loop of `GetClosestCRTHit` for `fDCAoverLength`
true (lines 509-515): `sinAngle` is computed once from `t0Candidates[0]`
before the loop and never updated. -/
noncomputable def selectLoopDoL (sinAngle : ℝ) : matchCand → List matchCand → matchCand
  | best, [] => best
  | best, c :: rest =>
      selectLoopDoL sinAngle
        (if best.dca < 0 then c
         else if c.dca / c.extrapLen < sinAngle ∧ c.dca ≥ 0 then c else best) rest

/-- The selection phase of `GetClosestCRTHit` (lines 504-526): start
from `t0Candidates[0]`, fix `sin_angle` at that candidate's ratio, then
run the configured loop over the whole candidate list; an empty list
yields the `makeNULLmc` sentinel. -/
noncomputable def GetBestMatch (fDCAoverLength : Bool) (cands : List matchCand) :
    matchCand :=
  match cands with
  | [] => makeNULLmc
  | c0 :: _ =>
      if fDCAoverLength then selectLoopDoL (c0.dca / c0.extrapLen) c0 cands
      else selectLoopDCA c0 cands

/-- `CRTT0MatchAlg::GetClosestCRTHit` core overload (lines 383-528):
filter every CRT hit through the candidate loop, then select the best
match. -/
noncomputable def GetClosestCRTHit (cfg : MatchConfig) (svc : MatchServices)
    (start end_ : V3) (dirs : ℚ → V3 × V3) (t0MinMax : ℚ × ℚ)
    (driftDirection : ℤ) (trigger_timestamp : ℕ)
    (crtHits : List CRTHit) : matchCand :=
  GetBestMatch cfg.fDCAoverLength
    (crtHits.filterMap
      (candidateOfHit cfg svc start end_ dirs t0MinMax driftDirection trigger_timestamp))

/-- `CRTT0MatchAlg::ClosestCRTHit` (lines 322-329): wrapper returning
the matched hit together with its DCA. -/
noncomputable def ClosestCRTHit (cfg : MatchConfig) (svc : MatchServices)
    (start end_ : V3) (dirs : ℚ → V3 × V3) (t0MinMax : ℚ × ℚ)
    (driftDirection : ℤ) (trigger_timestamp : ℕ)
    (crtHits : List CRTHit) : CRTHit × ℝ :=
  let bestmatch := GetClosestCRTHit cfg svc start end_ dirs t0MinMax
    driftDirection trigger_timestamp crtHits
  (bestmatch.thishit, bestmatch.dca)

/-- `std::vector::at` with the C++ `int`-to-`size_t` argument
conversion: any index outside `[0, length)` (including `-1`, which
converts to a huge `size_t`) throws `std::out_of_range`, modelled as
`none`. -/
def vecAt (l : List V3) (i : ℤ) : Option V3 :=
  if h : 0 ≤ i ∧ i.toNat < l.length then some (l.get ⟨i.toNat, h.2⟩) else none

/-- The zero-guarded normalisation used by `CRTT0MatchAlg::TrackDirection`
(lines 236-246: `norm = dir.Mag(); if (norm>0) dir *= 1.0/norm`) and by
`TVector3::Unit` (guard on `Mag2() > 0`): the vector is scaled only when
its magnitude is positive, so a zero vector is returned unchanged and no
division by zero is performed. -/
noncomputable def trackDirUnitGuard (v : V3) : ℝ × ℝ × ℝ :=
  if 0 < v.mag then ((v.x : ℝ) / v.mag, (v.y : ℝ) / v.mag, (v.z : ℝ) / v.mag)
  else ((v.x : ℝ), (v.y : ℝ), (v.z : ℝ))

/-- `CRTT0MatchAlg::TrackDirectionAverageFromPoints` (lines 256-274),
taking the already-filtered list of valid trajectory points:
`endPoint = floor(nValidPoints * frac)`, then
`startDir = at(0) - at(endPoint-1)` and
`endDir = at(n-1) - at(n-endPoint)`, each unit-normalised.  `none`
models the `std::out_of_range` thrown by `std::vector::at` when an
index is outside the vector (in particular for an empty list, or when
`endPoint = 0` makes the index `endPoint - 1 = -1`). -/
noncomputable def TrackDirectionAverageFromPoints (validPoints : List V3)
    (frac : ℚ) : Option ((ℝ × ℝ × ℝ) × (ℝ × ℝ × ℝ)) :=
  let n : ℤ := validPoints.length
  let endPoint : ℤ := ⌊(validPoints.length : ℚ) * frac⌋
  (vecAt validPoints 0).bind fun p0 =>
  (vecAt validPoints (endPoint - 1)).bind fun pe =>
  (vecAt validPoints (n - 1)).bind fun plast =>
  (vecAt validPoints (n - endPoint)).map fun pfirst =>
  (trackDirUnitGuard (p0 - pe), trackDirUnitGuard (plast - pfirst))

/-! ### CRT front-end simulation (`CRTDetSim_module.cc`)

Per-tagger coincidence / dead-time state machine of
`CRTDetSim::produce`, source lines 572-726.  The cross-tagger MINOS
scan (lines 634-656), which reads the other taggers of the event, is
abstracted by the `pairScan` / `pairMac` parameters (a function of the
current trigger time, which is the only loop state it reads). -/

/-- `icarus::crt::CRTChannelData`: channel number, hit time (the value
of `trigClock.Time(T0())`, microseconds) and ADC charge. -/
structure ChannelData where
  channel : ℕ
  t0 : ℚ
  adc : ℕ
deriving DecidableEq

/-- `icarus::crt::CRTData` as filled at source line 707: FEB mac
address, sub-event counter, trigger time, triggering channel, channel
pair, mac pair and the accumulated channel data. -/
structure CRTDataRec where
  mac : ℕ
  entry : ℕ
  ttrig : ℚ
  chanTrig : ℕ
  tpair : ℕ × ℕ
  macPair : ℕ × ℕ
  chanData : List ChannelData
deriving DecidableEq

/-- CRT module type: CERN (`'c'`), Double Chooz (`'d'`) or MINOS
(`'m'`). -/
inductive ModType
  | c
  | d
  | m
deriving DecidableEq

/-- Static per-tagger configuration: module type, the coincidence
flags and windows (`fLayerCoincidenceWindow{C,D,M}`, nanoseconds),
dead time and bias time (`fDeadTime`, `fBiasTime`, microseconds), the
channel-to-layer map of the tagger, the abstracted MINOS pair scan and
the FEB mac address. -/
structure TagCfg where
  ttype : ModType
  applyC : Bool
  applyD : Bool
  applyM : Bool
  windowC : ℚ
  windowD : ℚ
  windowM : ℚ
  deadTime : ℚ
  biasTime : ℚ
  chanlayer : ℕ → ℕ
  pairScan : ℚ → Bool
  pairMac : ℚ → ℕ
  mac : ℕ

/-- The per-module coincidence window used at source lines 674-676:
`fLayerCoincidenceWindow{C,D,M} * 1e-3`. -/
def TagCfg.window (cfg : TagCfg) : ℚ :=
  match cfg.ttype with
  | ModType.c => cfg.windowC * (1 / 1000)
  | ModType.d => cfg.windowD * (1 / 1000)
  | ModType.m => cfg.windowM * (1 / 1000)

/-- Mutable loop state of the per-tagger pass (source lines 574-581
and the `Tagger` fields mutated inside the loop). -/
structure TagState where
  chanTrig : ChannelData
  ttrig : ℚ
  trackNHold : List ℕ
  layerNHold : List ℕ
  tpair : ℕ × ℕ
  macPair : ℕ × ℕ
  passing : List ChannelData
  minosPairFound : Bool
  entry : ℕ
  outputs : List CRTDataRec
deriving DecidableEq

/-- Initial state from the earliest data entry (source lines 597-601);
`tpair` and `macPair` are value-initialised pairs. -/
def initState (cfg : TagCfg) (h : ChannelData) : TagState :=
  { chanTrig := h
    ttrig := h.t0
    trackNHold := [h.channel]
    layerNHold := [cfg.chanlayer h.channel]
    tpair := (0, 0)
    macPair := (0, 0)
    passing := [h]
    minosPairFound := false
    entry := 0
    outputs := [] }

/-- Reset the accumulators onto a new trigger hit, as done by the three
`chanTrigData = chanTmpData; ... passingData.push_back(*chanTrigData)`
blocks (source lines 617-624, 658-665, 713-720). -/
def resetTo (cfg : TagCfg) (s : TagState) (h : ChannelData) : TagState :=
  { s with
    chanTrig := h
    ttrig := h.t0
    trackNHold := [h.channel]
    layerNHold := [cfg.chanlayer h.channel]
    passing := [h] }

/-- `(passingData.back()).SetADC(back.ADC() + tmp.ADC())` (source lines
682-686): add a charge to the last accumulated entry. -/
def bumpLastADC : List ChannelData → ℕ → List ChannelData
  | [], _ => []
  | [a], q => [{ a with adc := a.adc + q }]
  | a :: rest, q => a :: bumpLastADC rest q

/-- One iteration of the per-tagger data loop (source lines 604-722)
on hit `h`. -/
def detStep (cfg : TagCfg) (s : TagState) (h : ChannelData) : TagState :=
  let ttmp := h.t0
  -- lines 614-628: C/D trigger handoff while no layer coincidence yet
  if s.layerNHold.length = 1 ∧
      ((cfg.ttype = ModType.c ∧ cfg.applyC = true ∧
          ttmp - s.ttrig > cfg.windowC * (1 / 1000)) ∨
       (cfg.ttype = ModType.d ∧ cfg.applyD = true ∧
          ttmp - s.ttrig > cfg.windowD * (1 / 1000))) then
    resetTo cfg s h
  -- lines 633-669: MINOS cross-module coincidence scan
  else if cfg.ttype = ModType.m ∧ s.minosPairFound = false ∧ cfg.applyM = true ∧
      cfg.pairScan s.ttrig = false then
    resetTo cfg s h
  else
    let s1 :=
      if cfg.ttype = ModType.m ∧ s.minosPairFound = false ∧ cfg.applyM = true then
        { s with minosPairFound := true, macPair := (cfg.mac, cfg.pairMac s.ttrig) }
      else if cfg.ttype ≠ ModType.m then { s with macPair := (cfg.mac, cfg.mac) }
      else s
    -- lines 672-692: hits inside the coincidence (readout) window
    if ttmp < s1.ttrig + cfg.window then
      if h.channel ∈ s1.trackNHold then
        if ttmp < s1.ttrig + cfg.biasTime then
          { s1 with passing := bumpLastADC s1.passing h.adc }
        else s1
      else
        let s2 := { s1 with
          trackNHold := s1.trackNHold ++ [h.channel]
          passing := s1.passing ++ [h] }
        if cfg.chanlayer h.channel ∈ s1.layerNHold then s2
        else
          { s2 with
            layerNHold := s1.layerNHold ++ [cfg.chanlayer h.channel]
            tpair := (s1.chanTrig.channel, h.channel) }
    -- lines 693-700: inside the dead time, hit dropped
    else if ttmp ≤ s1.ttrig + cfg.deadTime then s1
    -- lines 702-722: read out the open window, new trigger channel
    else
      let s3 := { s1 with
        outputs := s1.outputs ++
          [{ mac := cfg.mac, entry := s1.entry, ttrig := s1.ttrig,
             chanTrig := s1.chanTrig.channel, tpair := s1.tpair,
             macPair := s1.macPair, chanData := s1.passing }]
        entry := s1.entry + 1
        minosPairFound := false }
      resetTo cfg s3 h

/-- Fold of `detStep` over the remaining data entries. -/
def runTagger (cfg : TagCfg) : TagState → List ChannelData → TagState
  | s, [] => s
  | s, h :: rest => runTagger cfg (detStep cfg s h) rest

/-- The whole per-tagger pass on time-sorted data (source lines
594-724): seed the state from the earliest entry, then loop over the
rest.  An empty data list (impossible for a constructed tagger) yields
the initial state of a null entry. -/
def processSortedTagger (cfg : TagCfg) (data : List ChannelData) : TagState :=
  match data with
  | [] => initState cfg ⟨0, 0, 0⟩
  | h :: rest => runTagger cfg (initState cfg h) rest

/-- The outer coincidence-possible gate (source lines 587-591):
`nLayers` is `layerid.size()` of the tagger. -/
def taggerGate (cfg : TagCfg) (nLayers : ℕ) : Bool :=
  cfg.ttype = ModType.m ∨
  (cfg.ttype = ModType.c ∧ (cfg.applyC = false ∨ 1 < nLayers)) ∨
  (cfg.ttype = ModType.d ∧ (cfg.applyD = false ∨ 1 < nLayers))

/-- `CRTData` records produced for one tagger: nothing when the gate
fails, otherwise the outputs of the data loop; the readout still open
at the end of the list is not flushed. -/
def processTagger (cfg : TagCfg) (nLayers : ℕ) (data : List ChannelData) :
    List CRTDataRec :=
  if taggerGate cfg nLayers then (processSortedTagger cfg data).outputs else []

/-! ### Claim C3 -/

/-- Claim C3: for every pair of endpoint X coordinates, every pair of
volume X limits, every drift velocity of either sign and every nonzero
drift direction in `{+1, -1}`, the window returned by `TrackT0Range`
satisfies `tMin ≤ tMax` (the min/max being taken after the division by
the signed drift velocity). -/
theorem C3_trackT0Range_ordered (driftVelocity startX endX : ℚ)
    (driftDirection : ℤ) (xLimits : ℚ × ℚ)
    (hd : driftDirection = 1 ∨ driftDirection = -1) :
    (TrackT0Range driftVelocity startX endX driftDirection xLimits).1 ≤
      (TrackT0Range driftVelocity startX endX driftDirection xLimits).2 := by
  rcases hd with h | h <;> subst h <;>
    simp only [TrackT0Range, if_neg (by decide : ¬ ((1 : ℤ) = 0)),
      if_neg (by decide : ¬ ((-1 : ℤ) = 0))] <;>
    exact min_le_max

/-- Witness for C3 at a concrete input with negative drift velocity. -/
theorem C3_witness :
    (TrackT0Range (-2) 0 10 1 (-5, 5)).1 ≤ (TrackT0Range (-2) 0 10 1 (-5, 5)).2 :=
  C3_trackT0Range_ordered (-2) 0 10 1 (-5, 5) (Or.inl rfl)

/-! ### Claim C4 -/

/-- Claim C4: `TrackT0Range` with drift direction 0 returns exactly the
degenerate window `(0, 0)`, and the time gate of `GetClosestCRTHit`
accepts every hit time when its window is degenerate (`tMin = tMax`),
so every hit proceeds to the subsequent quality cuts. -/
theorem C4_degenerate_window :
    (∀ (driftVelocity startX endX : ℚ) (xLimits : ℚ × ℚ),
        TrackT0Range driftVelocity startX endX 0 xLimits = (0, 0)) ∧
    (∀ (w : ℚ × ℚ) (t : ℚ), w.1 = w.2 → hitTimeAccepted w t = true) := by
  constructor
  · intro driftVelocity startX endX xLimits
    simp [TrackT0Range]
  · intro w t h
    simp [hitTimeAccepted, h]

/-- Witness for C4 at concrete inputs. -/
theorem C4_witness :
    TrackT0Range 1 2 3 0 (4, 5) = (0, 0) ∧ hitTimeAccepted (7, 7) 123456 = true :=
  ⟨C4_degenerate_window.1 1 2 3 (4, 5), C4_degenerate_window.2 (7, 7) 123456 rfl⟩

/-! ### Claim C5 -/

/-- Claim C5: with `TSMode ≠ 1` the corrected hit time is the
trigger-relative timestamp difference normalised by at most one full
rollover period: one period (`1e6`) is added below `-0.5e6`, subtracted
above `+0.5e6`, and the value is kept otherwise; in particular `+0.6e6`
normalises to `-0.4e6` and `-0.6e6` to `+0.4e6`. -/
theorem C5_wraparound :
    (∀ (tsMode : ℤ) (hit : CRTHit) (trig : ℕ), tsMode ≠ 1 →
        hitCrtTime tsMode hit trig =
          wrapCorrect ((hit.ts0_ns - ((trig % 1000000000 : ℕ) : ℚ)) / 1000)) ∧
    (∀ t : ℚ, t < -500000 → wrapCorrect t = t + 1000000) ∧
    (∀ t : ℚ, t > 500000 → wrapCorrect t = t - 1000000) ∧
    (∀ t : ℚ, -500000 ≤ t → t ≤ 500000 → wrapCorrect t = t) ∧
    wrapCorrect 600000 = -400000 ∧ wrapCorrect (-600000) = 400000 := by
  refine ⟨?_, ?_, ?_, ?_, by norm_num [wrapCorrect], by norm_num [wrapCorrect]⟩
  · intro tsMode hit trig h
    simp [hitCrtTime, crtTimeTS0, h]
  · intro t h
    simp [wrapCorrect, h]
  · intro t h
    rw [wrapCorrect, if_neg (by linarith), if_pos h]
  · intro t h1 h2
    rw [wrapCorrect, if_neg (by linarith), if_neg (by linarith)]

/-- Witness for C5 at concrete inputs. -/
theorem C5_witness :
    hitCrtTime 2 nullCRTHit 3 =
      wrapCorrect ((nullCRTHit.ts0_ns - ((3 % 1000000000 : ℕ) : ℚ)) / 1000) ∧
    wrapCorrect (-600001) = -600001 + 1000000 ∧
    wrapCorrect 600001 = 600001 - 1000000 ∧
    wrapCorrect 2 = 2 :=
  ⟨C5_wraparound.1 2 nullCRTHit 3 (by decide),
   C5_wraparound.2.1 (-600001) (by norm_num),
   C5_wraparound.2.2.1 600001 (by norm_num),
   C5_wraparound.2.2.2.1 2 (by norm_num) (by norm_num)⟩

/-! ### Claim C2 -/

/-- Configuration used for the C2 instances: `TSMode = 1`, a PE cut of
1, everything else trivial. -/
def cfgC2 : MatchConfig :=
  { fTSMode := 1, fPEcut := 1, fMaxUncert := 1000, fDistanceLimit := 100,
    fDCAuseBox := false, fDCAoverLength := false, fSCEposCorr := false }

/-- Services used for the C2 instances. -/
def svcC2 : MatchServices :=
  { driftVelocity := 1, sceEnabled := false, sceOffset := fun _ => ⟨0, 0, 0⟩ }

/-- Counterexample to claim C2 as stated: on an empty CRT-hit list the
matcher returns the `makeNULLmc` sentinel, whose DCA is `-99999` — a
negative sentinel, but not `-1` as claimed. -/
theorem C2_counterexample :
    (GetClosestCRTHit cfgC2 svcC2 ⟨0, 0, 0⟩ ⟨0, 0, 0⟩ (fun _ => (⟨0, 0, 0⟩, ⟨0, 0, 0⟩))
        (0, 0) 0 0 []).dca = -99999 ∧
    ((-99999 : ℝ) ≠ -1) := by
  constructor
  · rfl
  · norm_num

/-- Claim C2 (amended): for every track and configuration, an empty
CRT-hit list — and more generally any hit list in which every hit is
rejected by the cuts of the candidate loop — makes `GetClosestCRTHit`
return the `makeNULLmc` sentinel, whose DCA is the negative value
`-99999` (not `-1`); the `ClosestCRTHit` wrapper then returns the
default hit paired with `-99999`.  All functions are total, so no
exception is possible. -/
theorem C2_amended :
    (∀ (cfg : MatchConfig) (svc : MatchServices) (start end_ : V3)
        (dirs : ℚ → V3 × V3) (w : ℚ × ℚ) (dd : ℤ) (trig : ℕ),
        GetClosestCRTHit cfg svc start end_ dirs w dd trig [] = makeNULLmc) ∧
    (∀ (cfg : MatchConfig) (svc : MatchServices) (start end_ : V3)
        (dirs : ℚ → V3 × V3) (w : ℚ × ℚ) (dd : ℤ) (trig : ℕ)
        (crtHits : List CRTHit),
        (∀ h ∈ crtHits, candidateOfHit cfg svc start end_ dirs w dd trig h = none) →
        GetClosestCRTHit cfg svc start end_ dirs w dd trig crtHits = makeNULLmc) ∧
    makeNULLmc.dca = -99999 ∧ makeNULLmc.dca < 0 ∧
    (∀ (cfg : MatchConfig) (svc : MatchServices) (start end_ : V3)
        (dirs : ℚ → V3 × V3) (w : ℚ × ℚ) (dd : ℤ) (trig : ℕ),
        ClosestCRTHit cfg svc start end_ dirs w dd trig [] = (nullCRTHit, -99999)) := by
  refine ⟨fun _ _ _ _ _ _ _ _ => rfl, ?_, rfl, by norm_num [makeNULLmc],
    fun _ _ _ _ _ _ _ _ => rfl⟩
  intro cfg svc start end_ dirs w dd trig crtHits hall
  unfold GetClosestCRTHit
  rw [List.filterMap_eq_nil_iff.mpr hall]
  rfl

/-- Hit used by the C2 witness: its PE yield 0 fails the PE cut 1. -/
def hitC2 : CRTHit := nullCRTHit

/-- Witness for C2: a one-hit list in which the hit fails the PE cut
also yields the sentinel. -/
theorem C2_witness :
    GetClosestCRTHit cfgC2 svcC2 ⟨0, 0, 0⟩ ⟨1, 1, 1⟩ (fun _ => (⟨0, 0, 0⟩, ⟨0, 0, 0⟩))
      (0, 0) 0 0 [hitC2] = makeNULLmc :=
  C2_amended.2.1 cfgC2 svcC2 ⟨0, 0, 0⟩ ⟨1, 1, 1⟩ (fun _ => (⟨0, 0, 0⟩, ⟨0, 0, 0⟩))
    (0, 0) 0 0 [hitC2] (by
      intro h hm
      rw [List.mem_singleton] at hm
      subst hm
      rw [candidateOfHit]
      rw [if_neg (by simp [hitTimeAccepted]), if_pos (by norm_num [hitC2, nullCRTHit, cfgC2])])

/-! ### Claim C9 -/

/-- `vecAt` succeeds exactly on indices inside the vector. -/
theorem vecAt_pos (l : List V3) (i : ℤ) (h0 : 0 ≤ i) (hl : i.toNat < l.length) :
    vecAt l i = some (l.get ⟨i.toNat, hl⟩) := dif_pos ⟨h0, hl⟩

/-- `vecAt` models the `std::out_of_range` throw outside the vector. -/
theorem vecAt_neg (l : List V3) (i : ℤ) (h : ¬ (0 ≤ i ∧ i.toNat < l.length)) :
    vecAt l i = none := dif_neg h

/-- Counterexample to claim C9 as stated: `TrackDirectionAverageFromPoints`
does throw.  With zero valid trajectory points, `validPoints.at(0)`
throws `std::out_of_range` (modelled by `none`), and with a single valid
point and the default fraction 0.5, `endPoint = 0` makes
`validPoints.at(endPoint - 1)` throw. -/
theorem C9_counterexample :
    TrackDirectionAverageFromPoints [] (1 / 2) = none ∧
    TrackDirectionAverageFromPoints [⟨1, 2, 3⟩] (1 / 2) = none := by
  constructor
  · rw [TrackDirectionAverageFromPoints, vecAt_neg _ _ (by simp)]
    rfl
  · rw [TrackDirectionAverageFromPoints]
    rw [vecAt_pos ([⟨1, 2, 3⟩] : List V3) 0 le_rfl (by simp)]
    rw [vecAt_neg _ _ (by norm_num)]
    rfl

/-- Claim C9 (amended): `TrackDirection`'s normalisation is genuinely
zero-check-guarded (a zero-magnitude direction is returned unchanged,
with no division performed) and `TrackDirectionAverageFromPoints`
returns a value whenever its four `at` indices are in range
(`1 ≤ floor(n·frac) ≤ n` on a nonempty list); but with zero valid
trajectory points, or whenever `floor(n·frac) = 0`, its `vector::at`
call throws `std::out_of_range` (modelled by `none`) instead of
returning a value. -/
theorem C9_amended :
    (∀ frac : ℚ, TrackDirectionAverageFromPoints [] frac = none) ∧
    (∀ (pts : List V3) (frac : ℚ), ⌊(pts.length : ℚ) * frac⌋ = 0 →
        TrackDirectionAverageFromPoints pts frac = none) ∧
    (∀ (pts : List V3) (frac : ℚ),
        1 ≤ ⌊(pts.length : ℚ) * frac⌋ → ⌊(pts.length : ℚ) * frac⌋ ≤ (pts.length : ℤ) →
        (TrackDirectionAverageFromPoints pts frac).isSome = true) ∧
    (∀ v : V3, V3.magSq v = 0 →
        trackDirUnitGuard v = ((v.x : ℝ), (v.y : ℝ), (v.z : ℝ))) := by
  refine ⟨?_, ?_, ?_, ?_⟩
  · intro frac
    rw [TrackDirectionAverageFromPoints, vecAt_neg _ _ (by simp)]
    rfl
  · intro pts frac hep
    rw [TrackDirectionAverageFromPoints, hep]
    rcases h0 : vecAt pts 0 with _ | p0
    · rfl
    · rw [vecAt_neg _ (0 - 1) (by norm_num)]
      rfl
  · intro pts frac h1 h2
    have hlen : 1 ≤ pts.length := by
      have := h1.trans h2
      exact_mod_cast this
    rw [TrackDirectionAverageFromPoints]
    rw [vecAt_pos pts 0 le_rfl (by omega)]
    rw [vecAt_pos pts (⌊(pts.length : ℚ) * frac⌋ - 1) (by omega) (by omega)]
    rw [vecAt_pos pts ((pts.length : ℤ) - 1) (by omega) (by omega)]
    rw [vecAt_pos pts ((pts.length : ℤ) - ⌊(pts.length : ℚ) * frac⌋) (by omega) (by omega)]
    rfl
  · intro v hv
    rw [trackDirUnitGuard, if_neg]
    rw [not_lt]
    exact le_of_eq ((V3.mag_eq_zero_iff v).mpr hv)

/-- Witness for C9 at concrete inputs. -/
theorem C9_witness :
    TrackDirectionAverageFromPoints [⟨0, 0, 0⟩, ⟨0, 0, 0⟩, ⟨4, 4, 4⟩] (1 / 4) = none ∧
    (TrackDirectionAverageFromPoints [⟨0, 0, 0⟩, ⟨1, 0, 0⟩] (1 / 2)).isSome = true ∧
    trackDirUnitGuard ⟨0, 0, 0⟩ = (((0 : ℚ) : ℝ), ((0 : ℚ) : ℝ), ((0 : ℚ) : ℝ)) :=
  ⟨C9_amended.2.1 [⟨0, 0, 0⟩, ⟨0, 0, 0⟩, ⟨4, 4, 4⟩] (1 / 4) (by norm_num),
   C9_amended.2.2.1 [⟨0, 0, 0⟩, ⟨1, 0, 0⟩] (1 / 2) (by norm_num) (by norm_num),
   C9_amended.2.2.2 ⟨0, 0, 0⟩ (by norm_num [V3.magSq])⟩

/-! ### Claims C10 and C8 -/

/-- A step on a hit not arriving strictly after `ttrig + deadTime`
never appends a readout. -/
theorem detStep_no_readout (cfg : TagCfg) (s : TagState) (h : ChannelData)
    (hd : ¬ (s.ttrig + cfg.deadTime < h.t0)) :
    (detStep cfg s h).outputs = s.outputs := by
  simp only [detStep, resetTo]
  split_ifs <;> try rfl
  all_goals exfalso
  all_goals simp_all

/-- Each step keeps the trigger time or moves it to the current hit. -/
theorem detStep_ttrig (cfg : TagCfg) (s : TagState) (h : ChannelData) :
    (detStep cfg s h).ttrig = s.ttrig ∨ (detStep cfg s h).ttrig = h.t0 := by
  simp only [detStep, resetTo]
  split_ifs <;> simp

/-- If every remaining hit stays at or below `T + deadTime` while every
hit time is at least `T`, no readout is ever emitted. -/
theorem runTagger_no_emit (cfg : TagCfg) (T : ℚ) (data : List ChannelData) :
    ∀ s : TagState,
      (∀ h ∈ data, T ≤ h.t0 ∧ h.t0 ≤ T + cfg.deadTime) →
      T ≤ s.ttrig → s.outputs = [] →
      (runTagger cfg s data).outputs = [] := by
  induction data with
  | nil => intro s _ _ ho; exact ho
  | cons h rest ih =>
    intro s hall hs ho
    rw [runTagger]
    have hh := hall h (List.mem_cons_self h rest)
    have hd : ¬ (s.ttrig + cfg.deadTime < h.t0) := by
      push_neg
      linarith [hh.2]
    have h1 : (detStep cfg s h).outputs = [] := by
      rw [detStep_no_readout cfg s h hd, ho]
    have h2 : T ≤ (detStep cfg s h).ttrig := by
      rcases detStep_ttrig cfg s h with he | he <;> rw [he]
      · exact hs
      · exact hh.1
    exact ih (detStep cfg s h) (fun x hx => hall x (List.mem_cons_of_mem h hx)) h2 h1

/-- Claim C10: a readout is appended only when a later hit arrives
strictly later than the trigger time plus the dead time; the readout
still open when the data list is exhausted is never emitted, so a
tagger with exactly one data entry — and more generally one whose hits
all lie within the dead-time window of the (current) trigger — produces
no `CRTData` at all. -/
theorem C10_open_readout :
    (∀ (cfg : TagCfg) (s : TagState) (h : ChannelData),
        ¬ (s.ttrig + cfg.deadTime < h.t0) → (detStep cfg s h).outputs = s.outputs) ∧
    (∀ (cfg : TagCfg) (nLayers : ℕ) (h : ChannelData),
        processTagger cfg nLayers [h] = []) ∧
    (∀ (cfg : TagCfg) (nLayers : ℕ) (h0 : ChannelData) (rest : List ChannelData),
        (∀ h ∈ h0 :: rest, h0.t0 ≤ h.t0 ∧ h.t0 ≤ h0.t0 + cfg.deadTime) →
        processTagger cfg nLayers (h0 :: rest) = []) := by
  refine ⟨detStep_no_readout, ?_, ?_⟩
  · intro cfg n h
    unfold processTagger
    split_ifs <;> rfl
  · intro cfg n h0 rest hall
    unfold processTagger
    split_ifs with hg
    · show (processSortedTagger cfg (h0 :: rest)).outputs = []
      unfold processSortedTagger
      exact runTagger_no_emit cfg h0.t0 rest (initState cfg h0)
        (fun x hx => hall x (List.mem_cons_of_mem h0 hx)) le_rfl rfl
    · rfl

/-- Tagger configuration for the C10 witness (a CERN-type module with
coincidence requirements disabled). -/
def cfgC10 : TagCfg :=
  { ttype := ModType.c, applyC := false, applyD := false, applyM := false,
    windowC := 100000, windowD := 0, windowM := 0, deadTime := 200, biasTime := 50,
    chanlayer := fun n => n, pairScan := fun _ => false, pairMac := fun _ => 0,
    mac := 7 }

/-- Witness for C10 at concrete inputs. -/
theorem C10_witness :
    (detStep cfgC10 (initState cfgC10 ⟨3, 5, 7⟩) ⟨4, 6, 8⟩).outputs =
      (initState cfgC10 ⟨3, 5, 7⟩).outputs ∧
    processTagger cfgC10 1 [⟨3, 5, 7⟩] = [] ∧
    processTagger cfgC10 1 [⟨3, 5, 7⟩, ⟨4, 6, 8⟩] = [] :=
  ⟨C10_open_readout.1 cfgC10 _ _ (by norm_num [initState, cfgC10]),
   C10_open_readout.2.1 cfgC10 1 _,
   C10_open_readout.2.2 cfgC10 1 ⟨3, 5, 7⟩ [⟨4, 6, 8⟩] (by
      intro h hm
      simp only [List.mem_cons, List.mem_singleton] at hm
      rcases hm with rfl | rfl | hm
      · norm_num [cfgC10]
      · norm_num [cfgC10]
      · cases hm)⟩

/-- Tagger configuration for the C8 scenarios: a CERN-type module, FEB
mac 7, with coincidence window `w` (nanoseconds), dead time `dead`
(microseconds) and the layer-coincidence requirement set by `ac`. -/
def csimCfg (w dead : ℚ) (ac : Bool) : TagCfg :=
  { ttype := ModType.c, applyC := ac, applyD := false, applyM := false,
    windowC := w, windowD := 0, windowM := 0, deadTime := dead, biasTime := 0,
    chanlayer := fun n => n, pairScan := fun _ => false, pairMac := fun _ => 0,
    mac := 7 }

/-- First above-threshold hit of the C8 scenario: channel 10 at t = 0. -/
def csimHitA : ChannelData := ⟨10, 0, 100⟩

/-- Second above-threshold hit of the C8 scenario: channel 11 at t = 50. -/
def csimHitB : ChannelData := ⟨11, 50, 120⟩

/-- Counterexample to claim C8 as stated: with a coincidence window of
30 (config value 30000 ns, so an effective window of 30) and a dead time
of 200, the two hits 50 apart do not split into two readouts with the
second hit as new trigger: the second hit falls inside the dead-time
window and is dropped, no `CRTData` is emitted, and the trigger
reference (`chanTrigData` / `ttrig`) still belongs to the first hit. -/
theorem C8_counterexample :
    (processSortedTagger (csimCfg 30000 200 false) [csimHitA, csimHitB]).outputs = [] ∧
    (processSortedTagger (csimCfg 30000 200 false) [csimHitA, csimHitB]).chanTrig = csimHitA ∧
    (processSortedTagger (csimCfg 30000 200 false) [csimHitA, csimHitB]).ttrig = 0 ∧
    (processSortedTagger (csimCfg 30000 200 false) [csimHitA, csimHitB]).passing = [csimHitA] ∧
    csimHitA ≠ csimHitB := by
  norm_num [processSortedTagger, runTagger, detStep, initState, resetTo,
    TagCfg.window, csimCfg, csimHitA, csimHitB,
    (by decide : ModType.c ≠ ModType.m), (by decide : ModType.c ≠ ModType.d)]

/-- Claim C8 (amended): with effective coincidence window 100 and dead
time 200 the two hits are merged into the same `passingData`
accumulation (and no readout is emitted yet); with effective window 30
and dead time 200 the second hit falls into the dead-time window and is
dropped — the trigger reference is unchanged and nothing is emitted.
The second hit becomes the new trigger reference only when the 50-unit
gap exceeds the dead time (then the first readout is emitted), or — with
the layer-coincidence requirement enabled — through the no-coincidence
trigger handoff, which discards the first hit without emitting. -/
theorem C8_amended :
    ((processSortedTagger (csimCfg 100000 200 false) [csimHitA, csimHitB]).passing =
        [csimHitA, csimHitB] ∧
     (processSortedTagger (csimCfg 100000 200 false) [csimHitA, csimHitB]).outputs = []) ∧
    ((processSortedTagger (csimCfg 30000 200 false) [csimHitA, csimHitB]).passing =
        [csimHitA] ∧
     (processSortedTagger (csimCfg 30000 200 false) [csimHitA, csimHitB]).ttrig = 0) ∧
    ((processSortedTagger (csimCfg 30000 40 false) [csimHitA, csimHitB]).outputs =
        [{ mac := 7, entry := 0, ttrig := 0, chanTrig := 10, tpair := (0, 0),
           macPair := (7, 7), chanData := [csimHitA] }] ∧
     (processSortedTagger (csimCfg 30000 40 false) [csimHitA, csimHitB]).chanTrig =
        csimHitB ∧
     (processSortedTagger (csimCfg 30000 40 false) [csimHitA, csimHitB]).ttrig = 50 ∧
     (processSortedTagger (csimCfg 30000 40 false) [csimHitA, csimHitB]).passing =
        [csimHitB]) ∧
    ((processSortedTagger (csimCfg 30000 200 true) [csimHitA, csimHitB]).chanTrig =
        csimHitB ∧
     (processSortedTagger (csimCfg 30000 200 true) [csimHitA, csimHitB]).outputs = []) := by
  norm_num [processSortedTagger, runTagger, detStep, initState, resetTo,
    TagCfg.window, csimCfg, csimHitA, csimHitB,
    (by decide : ModType.c ≠ ModType.m), (by decide : ModType.c ≠ ModType.d)]

/-! ### Claim C1 -/

/-- The min-DCA loop returns its seed or an element of the list. -/
theorem selectLoopDCA_mem (l : List matchCand) :
    ∀ best : matchCand, selectLoopDCA best l = best ∨ selectLoopDCA best l ∈ l := by
  induction l with
  | nil => intro best; exact Or.inl rfl
  | cons c rest ih =>
    intro best
    rw [selectLoopDCA]
    rcases ih (if best.dca < 0 then c
        else if c.dca < best.dca ∧ c.dca ≥ 0 then c else best) with h | h
    · rw [h]
      split_ifs
      · exact Or.inr (List.mem_cons_self c rest)
      · exact Or.inr (List.mem_cons_self c rest)
      · exact Or.inl rfl
    · exact Or.inr (List.mem_cons_of_mem c h)

/-- With a nonnegative seed, the min-DCA loop returns a nonnegative
value bounded by the seed and by every nonnegative element. -/
theorem selectLoopDCA_minA (l : List matchCand) :
    ∀ best : matchCand, 0 ≤ best.dca →
      0 ≤ (selectLoopDCA best l).dca ∧ (selectLoopDCA best l).dca ≤ best.dca ∧
      ∀ c ∈ l, 0 ≤ c.dca → (selectLoopDCA best l).dca ≤ c.dca := by
  induction l with
  | nil =>
    intro best hb
    rw [selectLoopDCA]
    exact ⟨hb, le_rfl, by intro c hc; cases hc⟩
  | cons c rest ih =>
    intro best hb
    rw [selectLoopDCA, if_neg (not_lt.mpr hb)]
    by_cases h2 : c.dca < best.dca ∧ c.dca ≥ 0
    · rw [if_pos h2]
      obtain ⟨ha, hc, hm⟩ := ih c h2.2
      refine ⟨ha, le_trans hc (le_of_lt h2.1), ?_⟩
      intro d hd hdnn
      rcases List.mem_cons.mp hd with rfl | hd'
      · exact hc
      · exact hm d hd' hdnn
    · rw [if_neg h2]
      obtain ⟨ha, hc, hm⟩ := ih best hb
      refine ⟨ha, hc, ?_⟩
      intro d hd hdnn
      rcases List.mem_cons.mp hd with rfl | hd'
      · have hnlt : ¬ (d.dca < best.dca) := fun hlt => h2 ⟨hlt, hdnn⟩
        exact le_trans hc (not_lt.mp hnlt)
      · exact hm d hd' hdnn

/-- With a negative seed, the min-DCA loop still returns a nonnegative
value bounded by every nonnegative element, as soon as the list contains
one. -/
theorem selectLoopDCA_minB (l : List matchCand) :
    ∀ best : matchCand, best.dca < 0 → (∃ c ∈ l, 0 ≤ c.dca) →
      0 ≤ (selectLoopDCA best l).dca ∧
      ∀ c ∈ l, 0 ≤ c.dca → (selectLoopDCA best l).dca ≤ c.dca := by
  induction l with
  | nil =>
    intro best _ hex
    rcases hex with ⟨c, hc, _⟩
    cases hc
  | cons c rest ih =>
    intro best hb hex
    rw [selectLoopDCA, if_pos hb]
    by_cases hc0 : 0 ≤ c.dca
    · obtain ⟨ha, hle, hm⟩ := selectLoopDCA_minA rest c hc0
      refine ⟨ha, ?_⟩
      intro d hd hdnn
      rcases List.mem_cons.mp hd with rfl | hd'
      · exact hle
      · exact hm d hd' hdnn
    · have hex' : ∃ d ∈ rest, 0 ≤ d.dca := by
        rcases hex with ⟨d, hd, hdnn⟩
        rcases List.mem_cons.mp hd with rfl | hd'
        · exact absurd hdnn hc0
        · exact ⟨d, hd', hdnn⟩
      obtain ⟨ha, hm⟩ := ih c (not_le.mp hc0) hex'
      refine ⟨ha, ?_⟩
      intro d hd hdnn
      rcases List.mem_cons.mp hd with rfl | hd'
      · exact absurd hdnn hc0
      · exact hm d hd' hdnn

/-- On a list of nonnegative-DCA candidates, the ratio-mode loop keeps
the *last* candidate whose ratio beats the fixed threshold `sinAngle`,
not the candidate of minimum ratio. -/
theorem selectLoopDoL_filter (sinAngle : ℝ) (l : List matchCand) :
    ∀ best : matchCand, 0 ≤ best.dca → (∀ c ∈ l, 0 ≤ c.dca) →
      selectLoopDoL sinAngle best l =
        (l.filter fun c => decide (c.dca / c.extrapLen < sinAngle)).getLastD best := by
  induction l with
  | nil =>
    intro best _ _
    rw [selectLoopDoL]
    rfl
  | cons c rest ih =>
    intro best hb hall
    have hc0 : 0 ≤ c.dca := hall c (List.mem_cons_self c rest)
    have hall' : ∀ d ∈ rest, 0 ≤ d.dca := fun d hd => hall d (List.mem_cons_of_mem c hd)
    rw [selectLoopDoL, if_neg (not_lt.mpr hb)]
    by_cases hlt : c.dca / c.extrapLen < sinAngle
    · rw [if_pos ⟨hlt, hc0⟩, List.filter_cons_of_pos (by simpa using hlt),
        List.getLastD_cons]
      exact ih c hc0 hall'
    · rw [if_neg (fun hcon => hlt hcon.1), List.filter_cons_of_neg (by simpa using hlt)]
      exact ih best hb hall'

/-- Claim C1 (amended): with `fDCAoverLength` false the selection does
return a candidate of minimum DCA among those with `dca ≥ 0`, negatives
always losing to any valid candidate.  With `fDCAoverLength` true,
however, the comparison threshold `sin_angle` stays fixed at the first
candidate's `dca/extrapLen`, so the selection returns the *last*
candidate whose ratio is strictly below the first candidate's ratio
(the first candidate when none is), which need not minimise the ratio. -/
theorem C1_selection (cands : List matchCand) (c0 : matchCand)
    (rest : List matchCand) (hc : cands = c0 :: rest) :
    ((∃ c ∈ cands, 0 ≤ c.dca) →
      (GetBestMatch false cands ∈ cands ∧ 0 ≤ (GetBestMatch false cands).dca ∧
       ∀ c ∈ cands, 0 ≤ c.dca → (GetBestMatch false cands).dca ≤ c.dca)) ∧
    ((∀ c ∈ cands, 0 ≤ c.dca) →
      GetBestMatch true cands =
        (cands.filter fun c =>
          decide (c.dca / c.extrapLen < c0.dca / c0.extrapLen)).getLastD c0) := by
  subst hc
  constructor
  · intro hex
    have hmem : GetBestMatch false (c0 :: rest) ∈ c0 :: rest := by
      show selectLoopDCA c0 (c0 :: rest) ∈ c0 :: rest
      rcases selectLoopDCA_mem (c0 :: rest) c0 with h | h
      · rw [h]; exact List.mem_cons_self c0 rest
      · exact h
    by_cases hb : 0 ≤ c0.dca
    · obtain ⟨ha, _, hm⟩ := selectLoopDCA_minA (c0 :: rest) c0 hb
      exact ⟨hmem, ha, hm⟩
    · obtain ⟨ha, hm⟩ := selectLoopDCA_minB (c0 :: rest) c0 (not_le.mp hb) hex
      exact ⟨hmem, ha, hm⟩
  · intro hall
    show selectLoopDoL (c0.dca / c0.extrapLen) c0 (c0 :: rest) = _
    exact selectLoopDoL_filter (c0.dca / c0.extrapLen) (c0 :: rest) c0
      (hall c0 (List.mem_cons_self c0 rest)) hall

/-- First candidate of the C1 counterexample: DCA 10, length 1. -/
def mcA : matchCand := { thishit := nullCRTHit, t0 := 0, dca := 10, extrapLen := 1 }

/-- Second candidate of the C1 counterexample: DCA 5, length 1 — the
unique minimiser of `dca/extrapLen`. -/
def mcB : matchCand := { thishit := nullCRTHit, t0 := 0, dca := 5, extrapLen := 1 }

/-- Third candidate of the C1 counterexample: DCA 7, length 1. -/
def mcC : matchCand := { thishit := nullCRTHit, t0 := 0, dca := 7, extrapLen := 1 }

/-- Counterexample to claim C1 as stated: in `fDCAoverLength` mode on
the retained candidates with (dca, extrapLen) = (10,1), (5,1), (7,1)
the selection returns the candidate of ratio 7, although the valid
candidate `mcB` has the strictly smaller ratio 5 — the returned match
does not minimise `dca/extrapLen`. -/
theorem C1_counterexample :
    (GetBestMatch true [mcA, mcB, mcC]).dca /
        (GetBestMatch true [mcA, mcB, mcC]).extrapLen = 7 ∧
    mcB ∈ [mcA, mcB, mcC] ∧ 0 ≤ mcB.dca ∧ 0 < mcB.extrapLen ∧
    mcB.dca / mcB.extrapLen < 7 := by
  have hsel : GetBestMatch true [mcA, mcB, mcC] = mcC := by
    show selectLoopDoL (mcA.dca / mcA.extrapLen) mcA [mcA, mcB, mcC] = mcC
    rw [selectLoopDoL, if_neg (by norm_num [mcA]),
      if_neg (by norm_num [mcA] : ¬ (mcA.dca / mcA.extrapLen < mcA.dca / mcA.extrapLen ∧ mcA.dca ≥ 0))]
    rw [selectLoopDoL, if_neg (by norm_num [mcA]),
      if_pos (by norm_num [mcA, mcB] : mcB.dca / mcB.extrapLen < mcA.dca / mcA.extrapLen ∧ mcB.dca ≥ 0)]
    rw [selectLoopDoL, if_neg (by norm_num [mcB]),
      if_pos (by norm_num [mcA, mcC] : mcC.dca / mcC.extrapLen < mcA.dca / mcA.extrapLen ∧ mcC.dca ≥ 0)]
    rw [selectLoopDoL]
  rw [hsel]
  refine ⟨by norm_num [mcC], by simp, by norm_num [mcB], by norm_num [mcB],
    by norm_num [mcB]⟩

/-- Witness for C1 at concrete candidate lists. -/
theorem C1_witness :
    0 ≤ (GetBestMatch false [mcB, mcA]).dca ∧
    GetBestMatch true [mcA, mcB] =
      (([mcA, mcB]).filter fun c =>
        decide (c.dca / c.extrapLen < mcA.dca / mcA.extrapLen)).getLastD mcA :=
  ⟨((C1_selection [mcB, mcA] mcB [mcA] rfl).1
      ⟨mcB, List.mem_cons_self mcB [mcA], by norm_num [mcB]⟩).2.1,
   (C1_selection [mcA, mcB] mcA [mcB] rfl).2 (by
      intro c hc
      rcases List.mem_cons.mp hc with rfl | hc'
      · norm_num [mcA]
      · rcases List.mem_singleton.mp hc' with rfl
        norm_num [mcB])⟩

/-! ### Claim C6 -/

/-- A positive squared `dP` makes `LineSegmentDistance` positive. -/
theorem lineSegDist_pos (s1 e1 s2 e2 : V3)
    (h : 0 < V3.magSq (lineSegDP s1 e1 s2 e2)) :
    0 < LineSegmentDistance s1 e1 s2 e2 := by
  unfold LineSegmentDistance V3.mag
  exact Real.sqrt_pos.mpr (by exact_mod_cast h)

/-- CRT hit of the C6 failing input: centre `(-99998, 0, 0)`,
uncertainties `(1, 2, 2)`. -/
def hitC6 : CRTHit :=
  { x_pos := -99998, y_pos := 0, z_pos := 0, x_err := 1, y_err := 2, z_err := 2,
    peshit := 0, ts0_ns := 0, ts1_ns := 0 }

/-- Track segment start of the C6 failing input. -/
def startC6 : V3 := ⟨-100000, -1, -1⟩

/-- Track segment end of the C6 failing input. -/
def endC6 : V3 := ⟨-99998, 1, 1⟩

/-- Claim C6 evaluated at the failing input: the segment from
`(-100000, -1, -1)` to `(-99998, 1, 1)` passes through the interior of
the uncertainty box of `hitC6` (its point at parameter 3/4 is strictly
inside), yet `DistToCrtHit` is strictly positive instead of 0: the
slab test finds the entry point `(-99999, 0, 0)`, whose X coordinate
collides with the in-band sentinel `-99999`, so the hit-box early
return `return 0` is skipped and an edge distance is returned. -/
theorem C6_failing_input :
    ((⟨-199997/2, 1/2, 1/2⟩ : V3) = startC6 + (3/4 : ℚ) • (endC6 - startC6) ∧
     hitC6.x_pos - hitC6.x_err < -199997/2 ∧ (-199997/2 : ℚ) < hitC6.x_pos + hitC6.x_err ∧
     hitC6.y_pos - hitC6.y_err < 1/2 ∧ (1/2 : ℚ) < hitC6.y_pos + hitC6.y_err ∧
     hitC6.z_pos - hitC6.z_err < 1/2 ∧ (1/2 : ℚ) < hitC6.z_pos + hitC6.z_err) ∧
    (CubeIntersection
        ⟨hitC6.x_pos - hitC6.x_err, hitC6.y_pos - hitC6.y_err, hitC6.z_pos - hitC6.z_err⟩
        ⟨hitC6.x_pos + hitC6.x_err, hitC6.y_pos + hitC6.y_err, hitC6.z_pos + hitC6.z_err⟩
        startC6 endC6).1.x = -99999 ∧
    0 < DistToCrtHit hitC6 startC6 endC6 := by
  have hcube : (CubeIntersection
      ⟨hitC6.x_pos - hitC6.x_err, hitC6.y_pos - hitC6.y_err, hitC6.z_pos - hitC6.z_err⟩
      ⟨hitC6.x_pos + hitC6.x_err, hitC6.y_pos + hitC6.y_err, hitC6.z_pos + hitC6.z_err⟩
      startC6 endC6).1.x = -99999 := by
    norm_num [CubeIntersection, slabLo, slabHi, hitC6, startC6, endC6]
  refine ⟨⟨?_, ?_, ?_, ?_, ?_, ?_, ?_⟩, hcube, ?_⟩
  · apply V3.ext <;> norm_num [startC6, endC6]
  · norm_num [hitC6]
  · norm_num [hitC6]
  · norm_num [hitC6]
  · norm_num [hitC6]
  · norm_num [hitC6]
  · norm_num [hitC6]
  · have hverts : crtVerts hitC6 =
        (⟨-99998, -2, -2⟩, ⟨-99998, 2, -2⟩, ⟨-99998, -2, 2⟩, ⟨-99998, 2, 2⟩) := by
      norm_num [crtVerts, hitC6]
    simp only [DistToCrtHit]
    rw [if_neg (by rw [hcube]; norm_num), hverts]
    refine lt_min (lt_min ?_ ?_) (lt_min ?_ ?_) <;>
      (apply lineSegDist_pos
       norm_num [lineSegDP, V3.dot, V3.magSq, startC6, endC6, abs])

/-! ### Claim C7 -/

theorem V3.sub_self_vec (a : V3) : a - a = (⟨0, 0, 0⟩ : V3) := by
  apply V3.ext <;> simp

theorem V3.add_sub_cancel_left_vec (a b : V3) : (a + b) - a = b := by
  apply V3.ext <;> simp

theorem V3.sub_add_eq_sub_sub_vec (a b c : V3) : a - (b + c) = (a - b) - c := by
  apply V3.ext <;> simp <;> ring

/-- For a degenerate box both slab bounds coincide. -/
theorem slabLo_self (l s i : ℚ) : slabLo l l s i = (l - s) * i := by
  unfold slabLo
  split_ifs <;> rfl

/-- For a degenerate box both slab bounds coincide. -/
theorem slabHi_self (l s i : ℚ) : slabHi l l s i = (l - s) * i := by
  unfold slabHi
  split_ifs <;> rfl

/-- The cross product of a vector with a multiple of itself vanishes. -/
theorem cross_smul_self (t : ℚ) (v : V3) : V3.cross (t • v) v = (⟨0, 0, 0⟩ : V3) := by
  apply V3.ext <;> simp [V3.cross] <;> ring

/-- Dropping the first summand of the second factor does not change the
squared cross product. -/
theorem magSq_cross_sub_right (a b : V3) :
    V3.magSq (V3.cross a (a - b)) = V3.magSq (V3.cross a b) := by
  simp only [V3.cross, V3.magSq, V3.sub_x, V3.sub_y, V3.sub_z]
  ring

theorem mag_cross_sub_right (a b : V3) :
    (V3.cross a (a - b)).mag = (V3.cross a b).mag := by
  unfold V3.mag
  rw [magSq_cross_sub_right]

/-- Squared magnitude of an orthogonal-style decomposition. -/
theorem magSq_sub_smul (w v : V3) (t : ℚ) :
    V3.magSq (w - t • v) =
      V3.magSq w - 2 * t * V3.dot v w + t ^ 2 * V3.magSq v := by
  simp only [V3.magSq, V3.dot, V3.sub_x, V3.sub_y, V3.sub_z, V3.smul_x, V3.smul_y,
    V3.smul_z]
  ring

/-- If the direction has no zero component and the slab test of the
degenerate box `[pos, pos]` does not report the sentinel, then the line
passes exactly through `pos`. -/
theorem cube_degenerate (pos start dir : V3)
    (hdx : dir.x ≠ 0) (hdy : dir.y ≠ 0) (hdz : dir.z ≠ 0)
    (hne : (CubeIntersection pos pos start (start + dir)).1.x ≠ -99999) :
    pos - start = ((pos.x - start.x) * (1 / dir.x)) • dir := by
  simp only [CubeIntersection, V3.add_sub_cancel_left_vec, slabLo_self, slabHi_self]
    at hne
  set tx := (pos.x - start.x) * (1 / dir.x) with htx
  set ty := (pos.y - start.y) * (1 / dir.y) with hty
  set tz := (pos.z - start.z) * (1 / dir.z) with htz
  by_cases h1 : tx > ty ∨ ty > tx
  · rw [if_pos h1] at hne
    exact absurd rfl hne
  · rw [if_neg h1] at hne
    push_neg at h1
    have hxy : ty = tx := le_antisymm h1.2 h1.1
    rw [hxy] at hne
    rw [if_neg (lt_irrefl tx)] at hne
    by_cases h2 : tx > tz ∨ tz > tx
    · rw [if_pos h2] at hne
      exact absurd rfl hne
    · push_neg at h2
      have hxz : tz = tx := le_antisymm h2.2 h2.1
      apply V3.ext
      · simp only [V3.sub_x, V3.smul_x, htx]
        field_simp
      · have : (pos.y - start.y) = ty * dir.y := by
          rw [hty]
          field_simp
        simp only [V3.sub_y, V3.smul_y, this, hxy]
      · have : (pos.z - start.z) = tz * dir.z := by
          rw [htz]
          field_simp
        simp only [V3.sub_z, V3.smul_z, this, hxz]

/-- On the degenerate segment `[P, P]` against the line through `start`
with direction `dir`, the `dP` vector of `LineSegmentDistance` is the
component of `P - start` orthogonal to `dir` — provided the threshold
on `tN` does not fire, i.e. `dir · (P - start)` is zero or at least
`1e-5` in magnitude. -/
theorem lineSegDP_degenerate (P start dir : V3)
    (hth : V3.dot dir (P - start) = 0 ∨ 1 / 100000 ≤ |V3.dot dir (P - start)|) :
    lineSegDP P P start (start + dir) =
      (P - start) - (V3.dot dir (P - start) / V3.magSq dir) • dir := by
  have ha : V3.dot (⟨0, 0, 0⟩ : V3) (⟨0, 0, 0⟩ : V3) = 0 := by simp [V3.dot]
  have hb : V3.dot (⟨0, 0, 0⟩ : V3) dir = 0 := by simp [V3.dot]
  have hd : V3.dot (⟨0, 0, 0⟩ : V3) (P - start) = 0 := by simp [V3.dot]
  have hcc : V3.dot dir dir = V3.magSq dir := by
    simp [V3.dot, V3.magSq]
  simp only [lineSegDP, V3.sub_self_vec, V3.add_sub_cancel_left_vec, ha, hb, hd, hcc]
  norm_num
  rcases hth with h | h
  · rw [h]
    norm_num
    apply V3.ext <;> simp
  · rw [if_neg (not_lt.mpr h)]
    apply V3.ext <;> simp

/-- `SimpleDCA` in explicit cross-product form. -/
theorem simpleDCA_eq (hit : CRTHit) (start dir : V3) :
    SimpleDCA hit start dir =
      (V3.cross (hit.pos - start) dir).mag / dir.mag := by
  simp only [SimpleDCA]
  rw [V3.sub_add_eq_sub_sub_vec, mag_cross_sub_right]

/-- Claim C7 (amended): for a hit with zero positional uncertainties
the box-mode DCA agrees with the point-mode DCA, provided the direction
has no zero component (so the rational model of `1/dir` matches the
code) and the scalar `dir · (pos - start)` is either exactly zero or at
least the `smallNum` threshold `1e-5` in magnitude — in the open band
`0 < |dir · (pos - start)| < 1e-5` the threshold of
`LineSegmentDistance` snaps the line parameter to zero and the two
distances differ (see the counterexample). -/
theorem C7_box_point (hit : CRTHit) (start dir : V3)
    (hex : hit.x_err = 0) (hey : hit.y_err = 0) (hez : hit.z_err = 0)
    (hdx : dir.x ≠ 0) (hdy : dir.y ≠ 0) (hdz : dir.z ≠ 0)
    (hth : V3.dot dir (hit.pos - start) = 0 ∨
        1 / 100000 ≤ |V3.dot dir (hit.pos - start)|) :
    DistToCrtHit hit start (start + dir) = SimpleDCA hit start dir := by
  have hc : (0 : ℚ) < V3.magSq dir := by
    have h1 : 0 < dir.x * dir.x := mul_self_pos.mpr hdx
    have h2 := mul_self_nonneg dir.y
    have h3 := mul_self_nonneg dir.z
    unfold V3.magSq
    linarith
  have hbmin : (⟨hit.x_pos - hit.x_err, hit.y_pos - hit.y_err,
      hit.z_pos - hit.z_err⟩ : V3) = hit.pos := by
    rw [hex, hey, hez]
    apply V3.ext <;> simp [CRTHit.pos]
  have hbmax : (⟨hit.x_pos + hit.x_err, hit.y_pos + hit.y_err,
      hit.z_pos + hit.z_err⟩ : V3) = hit.pos := by
    rw [hex, hey, hez]
    apply V3.ext <;> simp [CRTHit.pos]
  by_cases hguard : (CubeIntersection hit.pos hit.pos start (start + dir)).1.x ≠ -99999
  · -- the slab test reports an intersection: both distances are zero
    have hbox : DistToCrtHit hit start (start + dir) = 0 := by
      simp only [DistToCrtHit]
      rw [hbmin, hbmax, if_pos hguard]
    have hw := cube_degenerate hit.pos start dir hdx hdy hdz hguard
    rw [hbox, simpleDCA_eq, hw, cross_smul_self]
    simp [V3.mag, V3.magSq]
  · -- no intersection: the four edge distances collapse to one value
    push_neg at hguard
    have hverts : crtVerts hit = (hit.pos, hit.pos, hit.pos, hit.pos) := by
      unfold crtVerts
      rw [hex, hey, hez]
      rw [if_neg (by simp), if_neg (by simp)]
      refine congrArg₂ _ ?_ (congrArg₂ _ ?_ (congrArg₂ _ ?_ ?_)) <;>
        (apply V3.ext <;> simp [CRTHit.pos])
    have hbox : DistToCrtHit hit start (start + dir) =
        LineSegmentDistance hit.pos hit.pos start (start + dir) := by
      simp only [DistToCrtHit]
      rw [hbmin, hbmax, if_neg (not_not_intro hguard), hverts]
      simp [min_self]
    rw [hbox, simpleDCA_eq]
    unfold LineSegmentDistance V3.mag
    rw [lineSegDP_degenerate hit.pos start dir hth]
    have hq1 : V3.magSq ((hit.pos - start) -
        (V3.dot dir (hit.pos - start) / V3.magSq dir) • dir) =
        V3.magSq (hit.pos - start) -
          V3.dot dir (hit.pos - start) ^ 2 / V3.magSq dir := by
      rw [magSq_sub_smul]
      field_simp
      ring
    have hq2 : V3.magSq (V3.cross (hit.pos - start) dir) =
        V3.magSq dir * (V3.magSq (hit.pos - start) -
          V3.dot dir (hit.pos - start) ^ 2 / V3.magSq dir) := by
      rw [V3.magSq_cross]
      have hdc : V3.dot (hit.pos - start) dir = V3.dot dir (hit.pos - start) := by
        simp only [V3.dot]
        ring
      rw [hdc]
      field_simp
      ring
    rw [hq1, hq2]
    push_cast
    rw [Real.sqrt_mul (by positivity)]
    rw [mul_div_cancel_left₀ _ (Real.sqrt_ne_zero'.mpr (by positivity))]

/-- CRT hit of the C7 counterexample: centre `(1, -1, 1e-6)`, all
uncertainties zero, so that `dir · (pos - start) = 1e-6` lies in the
open band `(0, 1e-5)` where the `LineSegmentDistance` threshold fires. -/
def hitC7 : CRTHit :=
  { x_pos := 1, y_pos := -1, z_pos := 1/1000000, x_err := 0, y_err := 0, z_err := 0,
    peshit := 0, ts0_ns := 0, ts1_ns := 0 }

/-- Counterexample to claim C7 as stated: for the zero-uncertainty hit
`hitC7`, the box-mode DCA from `(0,0,0)` along `(1,1,1)` is
`sqrt(2 + 1e-12)` (the threshold `|tN| < 1e-5` snaps the line parameter
to 0, leaving the full distance to the hit centre), while the point-mode
DCA is `sqrt(6 + 2e-12)/sqrt(3)`; the two differ. -/
theorem C7_counterexample :
    DistToCrtHit hitC7 ⟨0, 0, 0⟩ ((⟨0, 0, 0⟩ : V3) + ⟨1, 1, 1⟩) ≠
      SimpleDCA hitC7 ⟨0, 0, 0⟩ ⟨1, 1, 1⟩ := by
  have hguard : (CubeIntersection
      ⟨hitC7.x_pos - hitC7.x_err, hitC7.y_pos - hitC7.y_err, hitC7.z_pos - hitC7.z_err⟩
      ⟨hitC7.x_pos + hitC7.x_err, hitC7.y_pos + hitC7.y_err, hitC7.z_pos + hitC7.z_err⟩
      ⟨0, 0, 0⟩ ((⟨0, 0, 0⟩ : V3) + ⟨1, 1, 1⟩)).1.x = -99999 := by
    norm_num [CubeIntersection, slabLo, slabHi, hitC7]
  have hverts : crtVerts hitC7 =
      (⟨1, -1, 1/1000000⟩, ⟨1, -1, 1/1000000⟩, ⟨1, -1, 1/1000000⟩, ⟨1, -1, 1/1000000⟩) := by
    norm_num [crtVerts, hitC7]
  have hmagdp : V3.magSq (lineSegDP ⟨1, -1, 1/1000000⟩ ⟨1, -1, 1/1000000⟩
      ⟨0, 0, 0⟩ ((⟨0, 0, 0⟩ : V3) + ⟨1, 1, 1⟩)) = 2 + 1/10^12 := by
    norm_num [lineSegDP, V3.dot, V3.magSq, abs]
  have hbox : DistToCrtHit hitC7 ⟨0, 0, 0⟩ ((⟨0, 0, 0⟩ : V3) + ⟨1, 1, 1⟩) =
      Real.sqrt ((2 + 1/10^12 : ℚ) : ℝ) := by
    simp only [DistToCrtHit]
    rw [if_neg (by rw [hguard]; norm_num), hverts]
    simp only [min_self]
    unfold LineSegmentDistance V3.mag
    rw [hmagdp]
  have hcross : V3.magSq (V3.cross (hitC7.pos - ⟨0, 0, 0⟩) ⟨1, 1, 1⟩) = 6 + 2/10^12 := by
    norm_num [V3.cross, V3.magSq, hitC7, CRTHit.pos]
  have hpoint : SimpleDCA hitC7 ⟨0, 0, 0⟩ ⟨1, 1, 1⟩ =
      Real.sqrt ((6 + 2/10^12 : ℚ) : ℝ) / Real.sqrt ((3 : ℚ) : ℝ) := by
    rw [simpleDCA_eq]
    unfold V3.mag
    rw [hcross]
    norm_num [V3.magSq]
  rw [hbox, hpoint]
  intro heq
  have h3 : (0 : ℝ) < Real.sqrt ((3 : ℚ) : ℝ) := Real.sqrt_pos.mpr (by norm_num)
  have hmul := congrArg (fun x => x * Real.sqrt ((3 : ℚ) : ℝ)) heq
  simp only [div_mul_cancel₀ _ (ne_of_gt h3)] at hmul
  rw [← Real.sqrt_mul (by positivity)] at hmul
  have hratq := (Real.sqrt_inj (by positivity) (by positivity)).mp hmul
  rw [show ((2 + 1/10^12 : ℚ) : ℝ) * ((3 : ℚ) : ℝ) = (((2 + 1/10^12) * 3 : ℚ) : ℝ) by
    push_cast; ring] at hratq
  have : ((2 + 1/10^12) * 3 : ℚ) = (6 + 2/10^12 : ℚ) := by exact_mod_cast hratq
  norm_num at this

/-- CRT hit of the C7 witness: centre `(0, 5, 0)`, zero uncertainties. -/
def hitC7w : CRTHit :=
  { x_pos := 0, y_pos := 5, z_pos := 0, x_err := 0, y_err := 0, z_err := 0,
    peshit := 0, ts0_ns := 0, ts1_ns := 0 }

/-- Witness for C7 at a concrete input satisfying the hypotheses. -/
theorem C7_witness :
    DistToCrtHit hitC7w ⟨0, 0, 0⟩ ((⟨0, 0, 0⟩ : V3) + ⟨1, 1, 1⟩) =
      SimpleDCA hitC7w ⟨0, 0, 0⟩ ⟨1, 1, 1⟩ :=
  C7_box_point hitC7w ⟨0, 0, 0⟩ ⟨1, 1, 1⟩ rfl rfl rfl
    (by norm_num) (by norm_num) (by norm_num)
    (Or.inr (by norm_num [V3.dot, hitC7w, CRTHit.pos, abs]))

end Icarus
